import Mathlib

/-!
Shallow embedding of the client-side data-merge and filtering logic of the
Class-Timetable repository (file `frontend/src/App.js`), together with proofs
of the documented properties of that logic.

Conventions of the embedding:
* JS strings are Lean `String`s; the character-level JS operations
  (`toLowerCase`, `split`, `trim`, `includes`) are modelled by executable
  functions on `List Char` applied to `String.data`, covering the ASCII
  fragment that the application's data (day names, "HH:MM" times, group
  identifiers, room/course fields) lives in.
* `Number(x)` conversion is modelled on its integral fragment: strings that
  are an optionally signed decimal integer surrounded by whitespace convert
  to that integer, the empty/whitespace-only string converts to 0, and every
  other string (including the absent `undefined` component of a destructured
  split) converts to NaN, modelled as `none`.  Comparisons against NaN are
  false, exactly as in JS.
* Wall-clock inputs (current weekday, current time-of-day in minutes since
  midnight) are explicit parameters.
* Fallible `fetch` + JSON-parse boundaries are modelled by an
  `Option`-valued input: `none` is any network/transport failure, malformed
  JSON or missing dataset; the `catch` branch of the source maps it to the
  empty collection.  The Lean functions are total, which models the source
  guarantee that no exception escapes the fetch boundary.
-/

namespace Timetable

/-- Embedded `CourseRef` record (spec §3): the course data denormalized into
each schedule entry. -/
structure CourseRef where
  course_name : String
  course_code : String
  instructor : String
  credits : Int
deriving DecidableEq, Repr

/-- Embedded `time_slot` object of a schedule entry. -/
structure TimeSlot where
  start_time : String
  end_time : String
  duration_minutes : Int
deriving DecidableEq, Repr

/-- Embedded `ScheduleEntry` (spec §3): one scheduled class occurrence. -/
structure ScheduleEntry where
  day : String
  time_slot : TimeSlot
  room : String
  entry_type : String
  course : CourseRef
deriving DecidableEq, Repr

/-- Embedded `GroupDataset`: the per-group JSON document `group_{id}.json`. -/
structure GroupDataset where
  group : String
  entries : List ScheduleEntry
deriving DecidableEq, Repr

/-- Embedded `AggregateDataset`: the all-groups document `timetable.json`. -/
structure AggregateDataset where
  data : List GroupDataset
deriving DecidableEq, Repr

/-- One search hit as pushed by `handleSearch` (App.js 772-775): the entry
tagged with the group it came from. -/
structure SearchResult where
  group : String
  entry : ScheduleEntry
deriving DecidableEq, Repr

/-- One denormalized schedule slot of a catalog course (spec §4.6). -/
structure CourseSlot where
  group : String
  day : String
  time : String
  room : String
  type : String
deriving DecidableEq, Repr

/-- Embedded catalog `Course` (spec §3), the element type of `courses.json`. -/
structure Course where
  course_code : String
  course_name : String
  instructor : String
  credits : Int
  groups : List String
  schedule : List CourseSlot
deriving DecidableEq, Repr

/-- ASCII lower-casing of one character: the fragment of JS `toLowerCase`
relevant to the application's data. -/
def lowerC (c : Char) : Char :=
  if 'A' ≤ c && c ≤ 'Z' then Char.ofNat (c.toNat + 32) else c

/-- Lower-cased character list of a string: models `s.toLowerCase()`. -/
def lowerStr (s : String) : List Char := s.data.map lowerC

/-- JS whitespace characters recognised by the model of `trim` (the ASCII
ones; the application's queries and time strings are ASCII). -/
def isJsSpace (c : Char) : Bool :=
  c == (' ') || c == ('\t') || c == ('\n') || c == ('\r') || c == ('\x0b') || c == ('\x0c')

/-- Models `s.trim()` on ASCII whitespace. -/
def jsTrim (l : List Char) : List Char :=
  ((l.dropWhile isJsSpace).reverse.dropWhile isJsSpace).reverse

/-- Models `s.split(sep)` for a one-character separator: JS split always
yields at least one (possibly empty) piece. -/
def jsSplit (sep : Char) : List Char → List (List Char)
  | [] => [[]]
  | c :: rest =>
    if c = sep then [] :: jsSplit sep rest
    else
      match jsSplit sep rest with
      | [] => [[c]]
      | x :: xs => (c :: x) :: xs

/-- Decimal value of a digit list, most significant digit first. -/
def digitsVal (l : List Char) : Nat :=
  l.foldl (fun a c => 10 * a + (c.toNat - 48)) 0

/-- Models the JS `Number(x)` conversion on its integral fragment (see the
file header): `some` is a finite numeric value, `none` is NaN. -/
def jsNumber (l : List Char) : Option Int :=
  if l ≠ [] && l.all Char.isDigit then some ((digitsVal l : Int))
  else
    let t := jsTrim l
    if t.isEmpty then some 0
    else
      match t with
      | '+' :: rest =>
        if rest ≠ [] && rest.all Char.isDigit then some ((digitsVal rest : Int)) else none
      | '-' :: rest =>
        if rest ≠ [] && rest.all Char.isDigit then some (-(digitsVal rest : Int)) else none
      | _ => if t.all Char.isDigit then some ((digitsVal t : Int)) else none

/-- Minutes since midnight computed by the pattern
`const [h, m] = s.split(":").map(Number); h * 60 + m` used at App.js 25-29
and 79-82.  A missing second component is `undefined`, whose conversion is
NaN; NaN propagates through the arithmetic, so the result is `none` unless
both of the first two pieces convert to numbers. -/
def toMinutes (s : String) : Option Int :=
  match jsSplit (':') s.data with
  | [] => none
  | [h] =>
    match jsNumber h with
    | _ => none
  | h :: m :: _ =>
    match jsNumber h, jsNumber m with
    | some hv, some mv => some (hv * 60 + mv)
    | _, _ => none

/-- Embeds `isCurrentClass` (App.js 21-32), the spec's `isActiveNow`: the
current time-of-day in minutes since midnight is an explicit parameter.
A NaN bound makes the corresponding comparison false, as in JS. -/
def isCurrentClass (startTime endTime : String) (currentTime : Int) : Bool :=
  (match toMinutes startTime with
   | some s => decide (s ≤ currentTime)
   | none => false)
  &&
  (match toMinutes endTime with
   | some e => decide (currentTime ≤ e)
   | none => false)

/-- Embeds the filter of `fetchTodayClasses` (App.js 698-700):
`entry.day.toLowerCase() === currentDay.toLowerCase()`. -/
def todaysClasses (g : GroupDataset) (currentDay : String) : List ScheduleEntry :=
  g.entries.filter (fun e => lowerStr e.day == lowerStr currentDay)

/-- Parsed start time of an entry, as used by `nextClass` (App.js 79-82). -/
def startMinutes (e : ScheduleEntry) : Option Int :=
  toMinutes e.time_slot.start_time

/-- Embeds `nextClass` (App.js 75-85): the first entry of the list whose
start time is strictly after the current time; an unparseable start time
(NaN) never qualifies. -/
def nextClass (todayClasses : List ScheduleEntry) (currentTime : Int) : Option ScheduleEntry :=
  todayClasses.find? (fun c =>
    match startMinutes c with
    | some m => decide (currentTime < m)
    | none => false)

/-- Parsed start time with NaN defaulted, used to state the ordering
hypotheses and conclusions about `nextClass`. -/
def startVal (e : ScheduleEntry) : Int := (startMinutes e).getD 0

/-- Boolean prefix test on character lists (needle first). -/
def startsWithL : List Char → List Char → Bool
  | [], _ => true
  | _ :: _, [] => false
  | a :: as, b :: bs => a == b && startsWithL as bs

/-- Models `hay.includes(needle)` of JS (substring containment); the needle
is the first argument. -/
def containsL (needle : List Char) : List Char → Bool
  | [] => startsWithL needle []
  | c :: t => startsWithL needle (c :: t) || containsL needle t

/-- Embeds the per-entry match of `handleSearch` (App.js 763-771): the four
lower-cased search fields, any of which may contain the query. -/
def entryMatches (query : List Char) (e : ScheduleEntry) : Bool :=
  [lowerStr e.course.course_name, lowerStr e.course.instructor,
   lowerStr e.room, lowerStr e.course.course_code].any
    (fun f => containsL query f)

/-- Embeds the `continue` guard of `handleSearch` (App.js 758-760):
`selectedGroup && groupData.group.toLowerCase() !== selectedGroup.toLowerCase()`.
A `none` or empty-string filter is falsy in JS, so nothing is skipped. -/
def skipGroup (sel : Option String) (g : GroupDataset) : Bool :=
  match sel with
  | none => false
  | some sg => !(sg == ("")) && !(lowerStr g.group == lowerStr sg)

/-- Embeds the search loop of `handleSearch` (App.js 753-778) over an
already fetched aggregate: dataset order, then entry order, pushing each
matching entry tagged with its group. -/
def searchOver (agg : AggregateDataset) (sel : Option String) (searchQuery : String) :
    List SearchResult :=
  agg.data.flatMap (fun g =>
    if skipGroup sel g then []
    else (g.entries.filter (entryMatches (lowerStr searchQuery))).map
      (fun e => { group := g.group, entry := e }))

/-- Embeds `handleSearch` (App.js 741-786) end to end: the blank-query guard,
then the fetch of `timetable.json` (`none` = failed fetch or parse, handled
by the `catch` branch as an empty result), then the search loop. -/
def handleSearch (fetched : Option AggregateDataset) (sel : Option String)
    (searchQuery : String) : List SearchResult :=
  if jsTrim searchQuery.data == [] then []
  else
    match fetched with
    | none => []
    | some agg => searchOver agg sel searchQuery

/-- Embeds the data path of `fetchTodayClasses` (App.js 689-708) for a
selected group: a failed fetch is collapsed to the empty list by the
`catch` branch. -/
def fetchTodayClasses (fetched : Option GroupDataset) (currentDay : String) :
    List ScheduleEntry :=
  match fetched with
  | some g => todaysClasses g currentDay
  | none => []

/-- Embeds the data path of `fetchTimetableData` (App.js 711-724): the raw
group document, or the null document on a failed fetch. -/
def fetchTimetableData (fetched : Option GroupDataset) : Option GroupDataset :=
  fetched

/-- Embeds the data path of `fetchCourses` (App.js 727-738): `data.courses`
with both the `|| []` default and the `catch` branch collapsing to `[]`. -/
def fetchCourses (fetched : Option (List Course)) : List Course :=
  fetched.getD []

/-- The fixed weekday list of `TimetablePage` (App.js 207-213). -/
def weeklyDays : List String :=
  ["Monday", "Tuesday", "Wednesday", "Thursday", "Friday"]

/-- Comparator of the weekly view's sort (App.js 254-258):
`a.time_slot.start_time.localeCompare(b.time_slot.start_time)`.  On the
zero-padded ASCII "HH:MM" strings of the data, `localeCompare` order is
code-point lexicographic order of the character lists. -/
def startLe (a b : ScheduleEntry) : Prop :=
  a.time_slot.start_time.data ≤ b.time_slot.start_time.data

instance : DecidableRel startLe := fun a b =>
  inferInstanceAs (Decidable (a.time_slot.start_time.data ≤ b.time_slot.start_time.data))

instance : IsTotal ScheduleEntry startLe :=
  ⟨fun a b => le_total a.time_slot.start_time.data b.time_slot.start_time.data⟩

instance : IsTrans ScheduleEntry startLe :=
  ⟨fun _ _ _ hab hbc => le_trans hab hbc⟩

/-- Embeds one day's rows of `TimetablePage` (App.js 234-258): filter by
strict (case-sensitive) equality `entry.day === day`, then the stable JS
`Array.prototype.sort` under the start-time comparator; a stable sort by a
fixed comparator is extensionally insertion sort. -/
def dayBucket (g : GroupDataset) (day : String) : List ScheduleEntry :=
  List.insertionSort startLe (g.entries.filter (fun e => e.day == day))

/-- Embeds the weekly view of `TimetablePage`: one bucket per fixed weekday,
in the fixed order. -/
def weeklyView (g : GroupDataset) : List (String × List ScheduleEntry) :=
  weeklyDays.map (fun d => (d, dayBucket g d))

/-- The four visual states of `SearchPage` (App.js 409-457). -/
inductive SearchViewState where
  | loadingView
  | resultsView (results : List SearchResult)
  | noResultsView (query : String)
  | noQueryView
deriving DecidableEq, Repr

/-- Embeds the rendering decision of `SearchPage` (App.js 409-457): spinner
while loading, else the results when any, else the per-query empty message
when the raw query string is truthy (non-empty), else the no-query prompt. -/
def renderSearch (loading : Bool) (searchQuery : String)
    (searchResults : List SearchResult) : SearchViewState :=
  if loading then SearchViewState.loadingView
  else if searchResults.length > 0 then SearchViewState.resultsView searchResults
  else if searchQuery ≠ "" then SearchViewState.noResultsView searchQuery
  else SearchViewState.noQueryView

/-- The slice of the `App` component state driving the search view
(App.js 634-650): current page, raw query, displayed results, whether a
debounce timer is pending, the query of an in-flight `handleSearch` if any,
and the search loading flag. -/
structure AppState where
  currentPage : String
  searchQuery : String
  searchResults : List SearchResult
  pendingTimer : Bool
  inFlight : Option String
  loading : Bool
deriving DecidableEq, Repr

/-- The events of the single-threaded UI loop that touch the search state:
page navigation, a keystroke replacing the query, the 300ms debounce timer
firing, and an in-flight search's fetch completing. -/
inductive UiEvent where
  | navigate (p : String)
  | setQuery (q : String)
  | timerFire
  | fetchComplete
deriving DecidableEq, Repr

/-- The debounce effect of App.js 669-686, run after `currentPage` or
`searchQuery` changes: the cleanup of the previous run has already cleared
any pending timer; off the search page the body clears the results and
schedules nothing, on the search page it schedules a fresh timer. -/
def runSearchEffect (s : AppState) : AppState :=
  if s.currentPage ≠ ("search")
  then { s with searchResults := [], pendingTimer := false }
  else { s with pendingTimer := true }

/-- One step of the UI loop.  React re-runs the effect only when the watched
values change, hence the no-change guards.  `timerFire` models the body of
the fired timeout (App.js 676-682) together with the start of the async
`handleSearch`; `fetchComplete` models the rest of `handleSearch` after its
fetch resolves successfully, computing the results from the query captured
when the search started.  Nothing cancels an in-flight search: `navigate`
leaves `inFlight` untouched. -/
def step (agg : AggregateDataset) (sel : Option String) (s : AppState) :
    UiEvent → AppState
  | UiEvent.navigate p =>
    if p = s.currentPage then s else runSearchEffect { s with currentPage := p }
  | UiEvent.setQuery q =>
    if q = s.searchQuery then s else runSearchEffect { s with searchQuery := q }
  | UiEvent.timerFire =>
    if s.pendingTimer then
      if jsTrim s.searchQuery.data ≠ [] then
        { s with pendingTimer := false, loading := true, inFlight := some s.searchQuery }
      else
        { s with pendingTimer := false, searchResults := [] }
    else s
  | UiEvent.fetchComplete =>
    match s.inFlight with
    | some q =>
      { s with searchResults := searchOver agg sel q, loading := false, inFlight := none }
    | none => s

/-- Folds a list of UI events through `step`. -/
def runEvents (agg : AggregateDataset) (sel : Option String) (s : AppState)
    (es : List UiEvent) : AppState :=
  es.foldl (step agg sel) s

/-- Well-formed zero-padded 24-hour "HH:MM" string, the shape the spec
ascribes to all stored times. -/
def wellFormedHHMM (s : String) : Bool :=
  match s.data with
  | [h1, h2, c, m1, m2] =>
    h1.isDigit && (h2.isDigit && ((c == (':')) && (m1.isDigit && (m2.isDigit &&
      (decide (10 * (h1.toNat - 48) + (h2.toNat - 48) < 24) &&
       decide (10 * (m1.toNat - 48) + (m2.toNat - 48) < 60))))))
  | _ => false

/-- Reference reading of a well-formed "HH:MM" string as minutes since
midnight (0 on other shapes), the quantity the spec's statements are about. -/
def hhmmMinutes (s : String) : Int :=
  match s.data with
  | [h1, h2, _, m1, m2] =>
    (((10 * (h1.toNat - 48) + (h2.toNat - 48)) * 60
      + (10 * (m1.toNat - 48) + (m2.toNat - 48)) : Nat) : Int)
  | _ => 0

/-- Modelled from the spec (§4.5): a dataset is kept when no group filter is
set, or when its identifier case-insensitively equals the set filter. -/
def specKeep (sel : Option String) (g : GroupDataset) : Prop :=
  match sel with
  | none => True
  | some sg => lowerStr g.group = lowerStr sg

instance (sel : Option String) (g : GroupDataset) : Decidable (specKeep sel g) := by
  unfold specKeep
  cases sel <;> infer_instance

/-- Modelled from the spec (§4.5): the lowercased query is a substring of at
least one of the four lowercase search fields. -/
def specMatches (q : String) (e : ScheduleEntry) : Prop :=
  lowerStr q <:+: lowerStr e.course.course_name
  ∨ lowerStr q <:+: lowerStr e.course.instructor
  ∨ lowerStr q <:+: lowerStr e.room
  ∨ lowerStr q <:+: lowerStr e.course.course_code

instance (q : String) (e : ScheduleEntry) : Decidable (specMatches q e) := by
  unfold specMatches
  infer_instance

/-- Modelled from the spec (§4.5): the search result list stated in the
spec's own terms, kept datasets in order, matching entries in order. -/
def specSearch (agg : AggregateDataset) (sel : Option String) (q : String) :
    List SearchResult :=
  (agg.data.filter (fun g => decide (specKeep sel g))).flatMap
    (fun g => (g.entries.filter (fun e => decide (specMatches q e))).map
      (fun e => { group := g.group, entry := e }))

/-- Concrete data used by the witnesses: two courses. -/
def crMath : CourseRef :=
  { course_name := "Mathematics", course_code := "MATH101",
    instructor := "Dr. Rao", credits := 4 }

/-- Concrete data used by the witnesses: a second course. -/
def crPhys : CourseRef :=
  { course_name := "Physics", course_code := "PHYS101",
    instructor := "Dr. Sen", credits := 3 }

/-- Concrete Monday 09:00 entry in Room 204. -/
def e0900 : ScheduleEntry :=
  { day := "Monday", time_slot := { start_time := "09:00", end_time := "10:30", duration_minutes := 90 },
    room := "Room 204", entry_type := "lecture", course := crMath }

/-- Concrete Monday 11:00 entry in Room 205. -/
def e1100 : ScheduleEntry :=
  { day := "Monday", time_slot := { start_time := "11:00", end_time := "12:00", duration_minutes := 60 },
    room := "Room 205", entry_type := "lab", course := crPhys }

/-- Concrete Monday 14:00 entry in Room 204. -/
def e1400 : ScheduleEntry :=
  { day := "Monday", time_slot := { start_time := "14:00", end_time := "15:00", duration_minutes := 60 },
    room := "Room 204", entry_type := "lecture", course := crMath }

/-- Concrete Tuesday entry. -/
def eTue : ScheduleEntry :=
  { day := "Tuesday", time_slot := { start_time := "09:00", end_time := "10:00", duration_minutes := 60 },
    room := "Room 101", entry_type := "lecture", course := crPhys }

/-- Concrete group dataset: Monday entries deliberately out of time order. -/
def demoGroup : GroupDataset :=
  { group := "B", entries := [e1400, e0900, e1100, eTue] }

/-- Concrete aggregate dataset holding the one demo group. -/
def demoAgg : AggregateDataset :=
  { data := [demoGroup] }

/-- Initial UI state on the search page with nothing displayed. -/
def searchStart : AppState :=
  { currentPage := "search", searchQuery := "", searchResults := [],
    pendingTimer := false, inFlight := none, loading := false }

/-- The navigation trace of the staleness counterexample: type a query, let
the debounce fire, leave the page while the search is in flight, let the
fetch complete, come back without typing. -/
def staleTrace : List UiEvent :=
  [UiEvent.setQuery ("Physics"), UiEvent.timerFire, UiEvent.navigate ("home"),
   UiEvent.fetchComplete, UiEvent.navigate ("search")]

/-- UI state on the search page with a fired query whose search is in
flight, used by a witness. -/
def busyState : AppState :=
  { currentPage := "search", searchQuery := "Physics", searchResults := [],
    pendingTimer := true, inFlight := some ("Physics"), loading := true }

/-- Two booleans agreeing as propositions are equal. -/
theorem bool_eq_of_iff {a b : Bool} (h : a = true ↔ b = true) : a = b := by
  cases a <;> cases b <;> simp_all

/-- The boolean prefix test agrees with `List.IsPrefix`. -/
theorem startsWithL_iff (n h : List Char) : startsWithL n h = true ↔ n <+: h := by
  induction n generalizing h with
  | nil => simp [startsWithL]
  | cons a as ih =>
    cases h with
    | nil => simp [startsWithL]
    | cons b bs => simp [startsWithL, ih, List.cons_prefix_cons]

/-- The model of JS `includes` agrees with `List.IsInfix`. -/
theorem containsL_iff (n h : List Char) : containsL n h = true ↔ n <:+: h := by
  induction h with
  | nil => simp [containsL, startsWithL_iff]
  | cons c t ih => simp [containsL, startsWithL_iff, ih, List.infix_cons_iff]

/-- The source's four-field any-match coincides with the spec-side
substring disjunction. -/
theorem entryMatches_true_iff (q : String) (e : ScheduleEntry) :
    entryMatches (lowerStr q) e = true ↔ specMatches q e := by
  simp [entryMatches, specMatches, containsL_iff]

/-- A decimal digit is not the colon separator. -/
theorem digit_ne_colon {c : Char} (h : c.isDigit = true) : ¬ c = ':' := by
  intro hc
  rw [hc] at h
  exact absurd h (by decide)

/-- The JS `Number` model on a non-empty all-digit string is its decimal
value. -/
theorem jsNumber_digits {l : List Char} (hne : l ≠ []) (hd : l.all Char.isDigit = true) :
    jsNumber l = some ((digitsVal l : Int)) := by
  unfold jsNumber
  rw [if_pos (by simp [hne, hd])]

/-- On a well-formed "HH:MM" string the source's split-and-convert parse
returns exactly the reference minutes-since-midnight value. -/
theorem toMinutes_wf {s : String} (h : wellFormedHHMM s = true) :
    toMinutes s = some (hhmmMinutes s) := by
  unfold wellFormedHHMM at h
  rcases hl : s.data with _ | ⟨a, _ | ⟨b, _ | ⟨x, _ | ⟨c, _ | ⟨d, _ | ⟨y, rest⟩⟩⟩⟩⟩⟩ <;>
      rw [hl] at h <;>
    simp only [Bool.and_eq_true, decide_eq_true_eq, beq_iff_eq,
      Bool.false_eq_true] at h
  obtain ⟨ha, hb, hx, hc, hd, -, -⟩ := h
  subst hx
  have ha' := digit_ne_colon ha
  have hb' := digit_ne_colon hb
  have hc' := digit_ne_colon hc
  have hd' := digit_ne_colon hd
  have hsplit : jsSplit (':') [a, b, ':', c, d] = [[a, b], [c, d]] := by
    simp [jsSplit, ha', hb', hc', hd']
  unfold toMinutes hhmmMinutes
  rw [hl, hsplit]
  dsimp only
  rw [jsNumber_digits (by simp) (by simp [ha, hb]),
      jsNumber_digits (by simp) (by simp [hc, hd])]
  dsimp only
  simp only [digitsVal, List.foldl_cons, List.foldl_nil, Option.some.injEq]
  push_cast
  ring_nf

/-- C1: for every `GroupDataset` and weekday name, the today's-classes
derivation returns exactly the entries whose day equals the weekday under
case-insensitive comparison — the result is a subsequence of the dataset
(original relative order), membership and multiplicity are exactly those of
the matching entries — and applying the derivation again to the same inputs
yields the same list. -/
theorem C1_todaysClasses_exact (g : GroupDataset) (d : String) :
    (todaysClasses g d).Sublist g.entries
    ∧ (∀ e, e ∈ todaysClasses g d ↔ e ∈ g.entries ∧ lowerStr e.day = lowerStr d)
    ∧ (∀ e, (todaysClasses g d).count e
        = if lowerStr e.day = lowerStr d then g.entries.count e else 0)
    ∧ todaysClasses g d = todaysClasses g d := by
  refine ⟨List.filter_sublist _, ?_, ?_, rfl⟩
  · intro e
    simp [todaysClasses, List.mem_filter]
  · intro e
    by_cases h : lowerStr e.day = lowerStr d
    · rw [if_pos h]
      exact List.count_filter (by simp [h])
    · rw [if_neg h]
      rw [List.count_eq_zero]
      simp [todaysClasses, List.mem_filter, h]

/-- Witness for C1: the demo dataset and the weekday in a different case;
the derivation keeps the three Monday entries in dataset order. -/
theorem C1_witness :
    todaysClasses demoGroup ("MONDAY") = [e1400, e0900, e1100]
    ∧ ((todaysClasses demoGroup ("MONDAY")).Sublist demoGroup.entries
      ∧ (∀ e, e ∈ todaysClasses demoGroup ("MONDAY")
          ↔ e ∈ demoGroup.entries ∧ lowerStr e.day = lowerStr ("MONDAY"))
      ∧ (∀ e, (todaysClasses demoGroup ("MONDAY")).count e
          = if lowerStr e.day = lowerStr ("MONDAY") then demoGroup.entries.count e else 0)
      ∧ todaysClasses demoGroup ("MONDAY") = todaysClasses demoGroup ("MONDAY")) :=
  ⟨by decide, C1_todaysClasses_exact demoGroup ("MONDAY")⟩

/-- C7: a failed fetch — network/transport error, malformed JSON, missing
dataset, all modelled as the `none` outcome — yields the empty collection
(empty list, or null document for the timetable) at each of the four fetch
boundaries; the boundary functions are total, so no exception reaches the
rendering layer. -/
theorem C7_fetch_failure_empty (d q : String) (sel : Option String) :
    fetchTodayClasses none d = []
    ∧ fetchTimetableData none = none
    ∧ fetchCourses none = []
    ∧ handleSearch none sel q = [] := by
  refine ⟨rfl, rfl, rfl, ?_⟩
  unfold handleSearch
  split <;> rfl

/-- Witness for C7 at concrete arguments. -/
theorem C7_witness :
    fetchTodayClasses none ("Monday") = []
    ∧ fetchTimetableData none = none
    ∧ fetchCourses none = []
    ∧ handleSearch none (some ("B")) ("physics") = [] :=
  C7_fetch_failure_empty ("Monday") ("physics") (some ("B"))

/-- C10 counterexample: "HH:MM:SS"-shaped strings are not well-formed
"HH:MM" times, yet `split(":").map(Number)` destructuring uses only the
first two components, so both bounds parse to numbers and the function can
return true on malformed input, contradicting the claim that every
malformed pair yields false. -/
theorem C10_counterexample :
    wellFormedHHMM ("09:00:00") = false
    ∧ wellFormedHHMM ("10:30:00") = false
    ∧ isCurrentClass ("09:00:00") ("10:30:00") 600 = true := by
  decide

/-- C10 (amended): whenever parsing the start or the end string produces no
numeric minutes value (NaN) — e.g. a missing colon leaves the minutes
component `undefined`, or a component is non-numeric — the corresponding
range comparison is false, so `isActiveNow` returns false; being a total
function it raises no error. -/
theorem C10_nan_false (s e : String) (t : Int)
    (h : toMinutes s = none ∨ toMinutes e = none) :
    isCurrentClass s e t = false := by
  unfold isCurrentClass
  rcases h with h | h <;> rw [h] <;> simp

/-- Witness for C10 at a non-numeric start string. -/
theorem C10_witness :
    toMinutes ("banana") = none
    ∧ isCurrentClass ("banana") ("10:30") 600 = false :=
  ⟨by decide, C10_nan_false ("banana") ("10:30") 600 (Or.inl (by decide))⟩

/-- C4: for every pair of well-formed "HH:MM" strings and every current
time-of-day in minutes since midnight, `isActiveNow` is true exactly when
the current time lies in the inclusive range between the two parsed bounds
(both endpoints inclusive); the spec's five concrete cases at
09:00/10:30 are instances, checked in the witness. -/
theorem C4_isActiveNow_iff (s e : String) (t : Int)
    (hs : wellFormedHHMM s = true) (he : wellFormedHHMM e = true) :
    isCurrentClass s e t = true ↔ (hhmmMinutes s ≤ t ∧ t ≤ hhmmMinutes e) := by
  unfold isCurrentClass
  rw [toMinutes_wf hs, toMinutes_wf he]
  simp

/-- Witness for C4 at "09:00"–"10:30": the characterisation at 09:45, and
the spec's five concrete evaluations. -/
theorem C4_witness :
    (wellFormedHHMM ("09:00") = true ∧ wellFormedHHMM ("10:30") = true)
    ∧ (isCurrentClass ("09:00") ("10:30") 585 = true
        ↔ (hhmmMinutes ("09:00") ≤ 585 ∧ 585 ≤ hhmmMinutes ("10:30")))
    ∧ isCurrentClass ("09:00") ("10:30") 540 = true
    ∧ isCurrentClass ("09:00") ("10:30") 630 = true
    ∧ isCurrentClass ("09:00") ("10:30") 585 = true
    ∧ isCurrentClass ("09:00") ("10:30") 539 = false
    ∧ isCurrentClass ("09:00") ("10:30") 631 = false :=
  ⟨⟨by decide, by decide⟩,
   C4_isActiveNow_iff ("09:00") ("10:30") 585 (by decide) (by decide),
   by decide, by decide, by decide, by decide, by decide⟩

/-- C2: on a today's-classes list whose start times all parse and which is
sorted ascending by start time, `nextClass` returns an entry of the list
whose start time is strictly after the current time and minimal among such
entries, and returns `none` exactly when no entry starts strictly after the
current time. -/
theorem C2_nextClass_sorted (l : List ScheduleEntry) (t : Int)
    (hp : ∀ e ∈ l, (startMinutes e).isSome = true)
    (hs : List.Pairwise (fun a b => startVal a ≤ startVal b) l) :
    (∀ e, nextClass l t = some e →
        e ∈ l ∧ t < startVal e ∧ ∀ f ∈ l, t < startVal f → startVal e ≤ startVal f)
    ∧ (nextClass l t = none ↔ ∀ e ∈ l, startVal e ≤ t) := by
  induction l with
  | nil => simp [nextClass]
  | cons x xs ih =>
    have hx : (startMinutes x).isSome = true := hp x (by simp)
    have hpxs : ∀ e ∈ xs, (startMinutes e).isSome = true :=
      fun e he => hp e (by simp [he])
    have hhead : ∀ b ∈ xs, startVal x ≤ startVal b :=
      (List.pairwise_cons.mp hs).1
    obtain ⟨ihsome, ihnone⟩ := ih hpxs (List.pairwise_cons.mp hs).2
    have hpred : (match startMinutes x with
        | some m => decide (t < m)
        | none => false) = decide (t < startVal x) := by
      rcases hox : startMinutes x with _ | m
      · rw [hox] at hx
        simp at hx
      · simp [startVal, hox]
    by_cases hcase : t < startVal x
    · have hfind : nextClass (x :: xs) t = some x := by
        unfold nextClass
        exact List.find?_cons_of_pos _ (by rw [hpred]; simp [hcase])
      constructor
      · intro e he
        rw [hfind] at he
        obtain rfl : x = e := by injection he
        refine ⟨by simp, hcase, ?_⟩
        intro f hf htf
        rcases List.mem_cons.mp hf with rfl | hf'
        · exact le_refl _
        · exact hhead f hf'
      · rw [hfind]
        constructor
        · intro habs
          exact absurd habs (by simp)
        · intro hall
          exact absurd (hall x (by simp)) (by omega)
    · have hfind : nextClass (x :: xs) t = nextClass xs t := by
        unfold nextClass
        exact List.find?_cons_of_neg _ (by rw [hpred]; simp [hcase])
      constructor
      · intro e he
        rw [hfind] at he
        obtain ⟨hmem, hlt, hmin⟩ := ihsome e he
        refine ⟨List.mem_cons_of_mem _ hmem, hlt, ?_⟩
        intro f hf htf
        rcases List.mem_cons.mp hf with rfl | hf'
        · exact absurd htf hcase
        · exact hmin f hf' htf
      · rw [hfind, ihnone]
        constructor
        · intro hall e he
          rcases List.mem_cons.mp he with rfl | he'
          · omega
          · exact hall e he'
        · intro hall e he
          exact hall e (List.mem_cons_of_mem _ he)

/-- Witness for C2: the spec's example — entries at 09:00 and 11:00, current
time 10:00 (600 minutes) — with the hypotheses checked by evaluation, and
the returned entry computed to be the 11:00 one. -/
theorem C2_witness :
    ((∀ e ∈ [e0900, e1100], (startMinutes e).isSome = true)
      ∧ List.Pairwise (fun a b => startVal a ≤ startVal b) [e0900, e1100])
    ∧ ((∀ e, nextClass [e0900, e1100] 600 = some e →
          e ∈ [e0900, e1100] ∧ 600 < startVal e
          ∧ ∀ f ∈ [e0900, e1100], 600 < startVal f → startVal e ≤ startVal f)
      ∧ (nextClass [e0900, e1100] 600 = none ↔ ∀ e ∈ [e0900, e1100], startVal e ≤ 600))
    ∧ nextClass [e0900, e1100] 600 = some e1100 :=
  ⟨⟨by decide, by decide⟩,
   C2_nextClass_sorted [e0900, e1100] 600 (by decide) (by decide),
   by decide⟩

/-- C9: on any today's-classes list, sorted or not, whenever `nextClass`
returns an entry, that entry is a member of the list and its parsed start
time in minutes since midnight is strictly greater than the current time —
it is never an entry that already started or is in progress. -/
theorem C9_nextClass_future (l : List ScheduleEntry) (t : Int) (e : ScheduleEntry)
    (h : nextClass l t = some e) :
    e ∈ l ∧ ∃ m, startMinutes e = some m ∧ t < m := by
  have hmem := List.mem_of_find?_eq_some h
  have hpred := List.find?_some h
  refine ⟨hmem, ?_⟩
  rcases ho : startMinutes e with _ | m
  · rw [ho] at hpred
    simp at hpred
  · rw [ho] at hpred
    simp only [decide_eq_true_eq] at hpred
    exact ⟨m, rfl, hpred⟩

/-- Witness for C9 on an unsorted list: the first qualifying entry is the
14:00 one, a member starting strictly after 10:00. -/
theorem C9_witness :
    nextClass [e1400, e0900, e1100] 600 = some e1400
    ∧ (e1400 ∈ [e1400, e0900, e1100]
      ∧ ∃ m, startMinutes e1400 = some m ∧ 600 < m) :=
  ⟨by decide, C9_nextClass_future [e1400, e0900, e1100] 600 e1400 (by decide)⟩

/-- C5: the weekly view has exactly the five buckets Monday–Friday in that
order; each day's bucket is a permutation of the entries whose day exactly
(case-sensitively) equals the day name, sorted ascending by start time under
lexicographic string comparison; and any entry of any bucket has exactly the
bucket's day, so entries with other day values (weekends, other casings)
appear in no bucket. -/
theorem C5_weeklyView_buckets (g : GroupDataset) :
    ((weeklyView g).map Prod.fst = weeklyDays)
    ∧ (∀ d ∈ weeklyDays,
        (d, dayBucket g d) ∈ weeklyView g
        ∧ (dayBucket g d).Perm (g.entries.filter (fun e => e.day == d))
        ∧ List.Sorted startLe (dayBucket g d))
    ∧ (∀ d b e, (d, b) ∈ weeklyView g → e ∈ b → e.day = d) := by
  refine ⟨?_, ?_, ?_⟩
  · have hid : (Prod.fst ∘ fun d : String => (d, dayBucket g d)) = id := by
      funext d
      rfl
    simp [weeklyView, List.map_map, hid]
  · intro d hd
    refine ⟨List.mem_map.mpr ⟨d, hd, rfl⟩, ?_, ?_⟩
    · exact List.perm_insertionSort _ _
    · exact List.sorted_insertionSort startLe _
  · intro d b e hdb heb
    obtain ⟨d2, hd2, heq⟩ := List.mem_map.mp hdb
    have hfst : d2 = d := congrArg Prod.fst heq
    have hsnd : dayBucket g d2 = b := congrArg Prod.snd heq
    subst hfst
    subst hsnd
    unfold dayBucket at heb
    have hmem : e ∈ g.entries.filter (fun x => x.day == d2) :=
      (List.perm_insertionSort startLe _).mem_iff.mp heb
    simpa using (List.mem_filter.mp hmem).2

/-- Witness for C5: the Monday bucket of the demo dataset, whose Monday
entries appear in dataset order 14:00, 09:00, 11:00, comes out time-sorted. -/
theorem C5_witness :
    dayBucket demoGroup ("Monday") = [e0900, e1100, e1400]
    ∧ (((weeklyView demoGroup).map Prod.fst = weeklyDays)
      ∧ (∀ d ∈ weeklyDays,
          (d, dayBucket demoGroup d) ∈ weeklyView demoGroup
          ∧ (dayBucket demoGroup d).Perm
              (demoGroup.entries.filter (fun e => e.day == d))
          ∧ List.Sorted startLe (dayBucket demoGroup d))
      ∧ (∀ d b e, (d, b) ∈ weeklyView demoGroup → e ∈ b → e.day = d)) :=
  ⟨by decide, C5_weeklyView_buckets demoGroup⟩

/-- The source's skip guard agrees, on filters that are not the empty
string, with the negation of the spec-side keep condition. -/
theorem skipGroup_eq_not_keep {sel : Option String} (hsel : sel ≠ some (""))
    (g : GroupDataset) : skipGroup sel g = !(decide (specKeep sel g)) := by
  rcases sel with _ | sg
  · simp [skipGroup, specKeep]
  · have hne : ¬ sg = "" := fun h => hsel (by rw [h])
    have h1 : (sg == "") = false := by simp [hne]
    simp only [skipGroup, specKeep, h1, Bool.not_false, Bool.true_and]
    congr 1
    exact bool_eq_of_iff (by simp)

/-- The source's search loop equals the spec-side filter/flatMap form on
any dataset list, for a filter that is not the empty string. -/
theorem searchLists_eq (l : List GroupDataset) (sel : Option String) (q : String)
    (hsel : sel ≠ some ("")) :
    l.flatMap (fun g =>
      if skipGroup sel g then []
      else (g.entries.filter (entryMatches (lowerStr q))).map
        (fun e => { group := g.group, entry := e }))
    = (l.filter (fun g => decide (specKeep sel g))).flatMap
        (fun g => (g.entries.filter (fun e => decide (specMatches q e))).map
          (fun e => ({ group := g.group, entry := e } : SearchResult))) := by
  have hmatch : ∀ g : GroupDataset,
      g.entries.filter (entryMatches (lowerStr q))
        = g.entries.filter (fun e => decide (specMatches q e)) := by
    intro g
    apply List.filter_congr
    intro e _
    exact bool_eq_of_iff (by simp [entryMatches_true_iff])
  induction l with
  | nil => rfl
  | cons g gs ih =>
    simp only [List.flatMap_cons, List.filter_cons]
    rw [skipGroup_eq_not_keep hsel g]
    rcases hk : decide (specKeep sel g) with _ | _
    · simp [hk, ih]
    · simp [hk, ih, hmatch g]

/-- C3 counterexample to the claim as stated: the query " " is a non-empty
string, and per the claim it should match every entry whose fields contain a
space (it is a substring of "room 204"), but the code's blank-query guard
returns no results for it. -/
theorem C3_counterexample :
    handleSearch (some demoAgg) none (" ") = []
    ∧ specSearch demoAgg none (" ")
        = [⟨"B", e1400⟩, ⟨"B", e0900⟩, ⟨"B", e1100⟩, ⟨"B", eTue⟩] :=
  ⟨by decide, by decide⟩

/-- C3 (amended): for every aggregate dataset, query that is non-empty
after trimming whitespace, and optional group filter that is a non-empty
identifier when set, the search returns exactly the spec-side result —
datasets not case-insensitively matching a set filter are skipped, an entry
is included iff the lowercased query is a substring of one of the four
lowercase fields (course name, instructor, room, course code), in dataset
order then entry order with no re-ranking. -/
theorem C3_search_matches_spec (agg : AggregateDataset) (sel : Option String)
    (q : String) (hq : jsTrim q.data ≠ []) (hsel : sel ≠ some ("")) :
    handleSearch (some agg) sel q = specSearch agg sel q := by
  unfold handleSearch
  rw [if_neg (by simp [hq])]
  unfold searchOver specSearch
  exact searchLists_eq agg.data sel q hsel

/-- Witness for C3: the spec's "room 204" example on the demo aggregate —
the two Room 204 entries match in dataset order, the Room 205 entry does
not. -/
theorem C3_witness :
    (jsTrim ("room 204").data ≠ [] ∧ (none : Option String) ≠ some (""))
    ∧ handleSearch (some demoAgg) none ("room 204")
        = specSearch demoAgg none ("room 204")
    ∧ handleSearch (some demoAgg) none ("room 204") = [⟨"B", e1400⟩, ⟨"B", e0900⟩] :=
  ⟨⟨by decide, by decide⟩,
   C3_search_matches_spec demoAgg none ("room 204") (by decide) (by decide),
   by decide⟩

/-- C6 counterexample to the claim as stated: for the whitespace-only query
" " no search runs and the results are empty, but `SearchPage` keys its
message on the untrimmed query string, so the view shows the zero-matches
state for " ", not the "no query" state. -/
theorem C6_counterexample :
    handleSearch (some demoAgg) none (" ") = []
    ∧ renderSearch false (" ") (handleSearch (some demoAgg) none (" "))
        = SearchViewState.noResultsView (" ")
    ∧ SearchViewState.noResultsView (" ") ≠ SearchViewState.noQueryView := by
  decide

/-- C6 (amended): the empty query yields the explicit "no query" view
state, which is distinct from the zero-matches state shown for any
non-empty query with empty results; a whitespace-only (hence non-empty)
query also produces no results, but is displayed in the zero-matches state
rather than the "no query" state. -/
theorem C6_empty_query_state (agg : AggregateDataset) (sel : Option String)
    (q : String) (hq : q ≠ "") :
    renderSearch false ("") (handleSearch (some agg) sel ("")) = SearchViewState.noQueryView
    ∧ renderSearch false q [] = SearchViewState.noResultsView q
    ∧ SearchViewState.noResultsView q ≠ SearchViewState.noQueryView
    ∧ (jsTrim q.data = [] → handleSearch (some agg) sel q = []) := by
  refine ⟨?_, ?_, by simp, ?_⟩
  · have h0 : handleSearch (some agg) sel ("") = [] := by
      unfold handleSearch
      rw [if_pos (by decide)]
    rw [h0]
    simp [renderSearch]
  · simp [renderSearch, hq]
  · intro ht
    unfold handleSearch
    rw [if_pos (by simp [ht])]

/-- Witness for C6 at the whitespace-only query " ". -/
theorem C6_witness :
    renderSearch false ("") (handleSearch (some demoAgg) none ("")) = SearchViewState.noQueryView
    ∧ renderSearch false (" ") [] = SearchViewState.noResultsView (" ")
    ∧ SearchViewState.noResultsView (" ") ≠ SearchViewState.noQueryView
    ∧ (jsTrim (" ").data = [] → handleSearch (some demoAgg) none (" ") = []) :=
  C6_empty_query_state demoAgg none (" ") (by decide)

/-- C8 counterexample to the claim as stated: type "Physics" on the search
page, let the debounce fire so the search is in flight, navigate away — the
in-flight search is NOT cancelled (first conjunct) — let its fetch
complete, navigate back without typing: the state then renders the results
of the prior query, i.e. stale results are shown. -/
theorem C8_counterexample :
    (runEvents demoAgg none searchStart
        [UiEvent.setQuery ("Physics"), UiEvent.timerFire,
         UiEvent.navigate ("home")]).inFlight = some ("Physics")
    ∧ (runEvents demoAgg none searchStart staleTrace).currentPage = "search"
    ∧ (runEvents demoAgg none searchStart staleTrace).searchQuery = "Physics"
    ∧ (runEvents demoAgg none searchStart staleTrace).searchResults
        = [⟨"B", e1100⟩, ⟨"B", eTue⟩]
    ∧ renderSearch (runEvents demoAgg none searchStart staleTrace).loading
        (runEvents demoAgg none searchStart staleTrace).searchQuery
        (runEvents demoAgg none searchStart staleTrace).searchResults
        = SearchViewState.resultsView [⟨"B", e1100⟩, ⟨"B", eTue⟩] := by
  decide

/-- C8 (amended): leaving the search view clears the displayed results
immediately and cancels any pending (not yet fired) debounced search, but
does not cancel an in-flight search: `inFlight` is untouched by the
navigation, and its later completion repopulates the results, so stale
results from a prior query can be shown after navigating away and back
without a new query (see the counterexample trace). -/
theorem C8_leaving_search (agg : AggregateDataset) (sel : Option String)
    (s : AppState) (p : String)
    (hs : s.currentPage = "search") (hp : p ≠ "search") :
    (step agg sel s (UiEvent.navigate p)).searchResults = []
    ∧ (step agg sel s (UiEvent.navigate p)).pendingTimer = false
    ∧ (step agg sel s (UiEvent.navigate p)).inFlight = s.inFlight := by
  have hne : p ≠ s.currentPage := by
    rw [hs]
    exact hp
  simp [step, hne, runSearchEffect, hp]

/-- Witness for C8 on a state with a search in flight. -/
theorem C8_witness :
    (busyState.currentPage = "search" ∧ ("home" : String) ≠ "search")
    ∧ ((step demoAgg none busyState (UiEvent.navigate ("home"))).searchResults = []
      ∧ (step demoAgg none busyState (UiEvent.navigate ("home"))).pendingTimer = false
      ∧ (step demoAgg none busyState (UiEvent.navigate ("home"))).inFlight
          = busyState.inFlight) :=
  ⟨⟨by decide, by decide⟩,
   C8_leaving_search demoAgg none busyState ("home") (by decide) (by decide)⟩

end Timetable
